import Mathlib

/-!
# Shallow embedding of the `pyhmmer.daemon` client (`src/pyhmmer/daemon.pyx`)

This file models the HMMER-daemon client protocol code of
`src/pyhmmer/daemon.pyx`:

* the `ranges` argument validation at the top of `Client._client`
  (lines 196-202),
* the request-line encoding and the send sequence (lines 209-221),
* the exact-length receive helper `Client._recvall` (lines 141-157),
* the status-header handling and the server-error path (lines 223-236),
* the statistics + hit-record decode loop (lines 238-302).

Bytes are modelled as `Nat` (each in `0..255` on real inputs), byte strings
as `List Nat`, and the socket's incoming data as a list of fragments: the
successive chunks a `recv` call would deliver, an exhausted list meaning the
peer closed the connection.  The external HMMER library deserializers
(`p7_hmmd_search_stats_Deserialize`, `p7_hit_Deserialize`) are not part of
this repository; the client code treats them as black boxes returning a
status code, so they enter the model as function parameters.
-/

namespace Daemon

/-- The Python exceptions the client code can raise, with the data the
claims depend on.  `eofError` models `EOFError` raised by `_recvall`;
`unexpectedError` models `pyhmmer.errors.UnexpectedError(status, function)`;
`serverError` models `pyhmmer.errors.ServerError(code, message)`. -/
inductive PyErr where
  | valueError (msg : String)
  | typeError (msg : String)
  | eofError
  | unexpectedError (code : Nat) (fn : String)
  | serverError (code : Nat) (msg : String)
  deriving Repr, DecidableEq

/-- `libeasel.eslOK`, the success status code of the easel library. -/
def eslOK : Nat := 0

/-- The `ranges` validation at `daemon.pyx` lines 196-202.  A range tuple is
modelled as a `List Int` (Python tuples have arbitrary length, which the
second check tests); every element is an `Int` in this model, so the third
check (`isinstance(r[0], int) and isinstance(r[1], int)`) always passes.

The chain in the source is flat:

    if ranges is not None and len(ranges) < 1: raise ValueError(...)
    elif any(len(r) != 2 for r in ranges): raise ValueError(...)
    elif not all(...): raise TypeError(...)

so for `ranges = None` the first guard is false and the `elif` builds a
generator over `None`, which raises `TypeError: 'NoneType' object is not
iterable` at creation time. -/
def checkRanges : Option (List (List Int)) → Except PyErr Unit
  | none =>
      .error (.typeError "'NoneType' object is not iterable")
  | some rs =>
      if rs.length < 1 then
        .error (.valueError "At least one range is needed for the `ranges` argument")
      else if rs.any (fun r => r.length ≠ 2) then
        .error (.valueError "`ranges` must be a list of two-element tuples")
      else
        .ok ()

/-- `"{}..{}".format(*r)` for one range tuple (only reached after validation
has established `len(r) == 2`). -/
def formatRange (r : List Int) : String :=
  toString (r.getD 0 0) ++ ".." ++ toString (r.getD 1 0)

/-- `",".join("{}..{}".format(*r) for r in ranges)` (line 214). -/
def rangesString (rs : List (List Int)) : String :=
  String.intercalate "," (rs.map formatRange)

/-- The `options` string after the optional `--seqdb_ranges` prefix has been
attached (lines 212-216): `"--seqdb_ranges {} {}".format(...)` keeps a space
between the ranges clause and the (possibly empty) options string. -/
def seqdbOptions (ranges : Option (List (List Int))) (options : String) : String :=
  match ranges with
  | none => options
  | some rs => "--seqdb_ranges " ++ rangesString rs ++ " " ++ options

/-- The request line `f"@--seqdb {db} {options}\n"` of line 217. -/
def seqdbRequestLine (db : Nat) (ranges : Option (List (List Int))) (options : String) : String :=
  "@--seqdb " ++ toString db ++ " " ++ seqdbOptions ranges options ++ "\n"

/-- The request line `f"@--hmmdb {db} {options}\n"` of line 219. -/
def hmmdbRequestLine (db : Nat) (options : String) : String :=
  "@--hmmdb " ++ toString db ++ " " ++ options ++ "\n"

/-- `str.encode("ascii")` on the ASCII strings the client builds: the byte
values are the code points. -/
def asciiEncode (s : String) : List Nat :=
  s.toList.map Char.toNat

/-- The `p7_pipemodes_e` enumeration values used by the client
(`p7_SEARCH_SEQS` and `p7_SCAN_MODELS`). -/
inductive PipeMode where
  | search_seqs
  | scan_models
  deriving Repr, DecidableEq

/-- The request line chosen at lines 211-219 from the pipeline mode. -/
def requestLine (db : Nat) (ranges : Option (List (List Int))) (options : String) :
    PipeMode → String
  | .search_seqs => seqdbRequestLine db ranges options
  | .scan_models => hmmdbRequestLine db options

/-- One step of `Client._recvall`'s loop (lines 151-156), iterated until
`remaining` is zero: `recv_into` delivers the next fragment truncated to the
space left in the buffer, the surplus staying queued on the socket.  `none`
models the `EOFError` raised when `recv` returns zero bytes (peer closed, or
an explicit empty fragment).  On success it returns the filled buffer and
the fragments still queued. -/
def recvallAux (frags : List (List Nat)) (remaining : Nat) (acc : List Nat) :
    Option (List Nat × List (List Nat)) :=
  if h : remaining = 0 then
    some (acc, frags)
  else
    match frags with
    | [] => none
    | f :: rest =>
      if hf : f = [] then
        none
      else
        recvallAux
          (if f.drop remaining = [] then rest else f.drop remaining :: rest)
          (remaining - (f.take remaining).length)
          (acc ++ f.take remaining)
termination_by remaining
decreasing_by
  have hlen : 0 < f.length := List.length_pos.mpr hf
  simp [List.length_take]
  omega

/-- `Client._recvall(message_size)` (lines 141-157) on a fragment stream:
returns the exact-length buffer together with the unconsumed part of the
stream, or `none` when the peer closes first (`EOFError`). -/
def recvall (frags : List (List Nat)) (message_size : Nat) :
    Option (List Nat × List (List Nat)) :=
  recvallAux frags message_size []

/-- A single `socket.recv(n)` call (line 235): delivers the next fragment
truncated to `n` bytes — possibly fewer than `n` — and returns empty bytes
when the peer has closed. -/
def recvOnce (frags : List (List Nat)) (n : Nat) : List Nat × List (List Nat) :=
  match frags with
  | [] => ([], [])
  | f :: rest =>
      (f.take n, if f.drop n = [] then rest else f.drop n :: rest)

/-- The Unicode replacement character U+FFFD. -/
def replacementChar : Nat := 0xFFFD

/-- Second-byte admissibility for a three-byte UTF-8 lead (rules out
overlong encodings for `0xE0` and surrogates for `0xED`). -/
def cont3Ok (b c : Nat) : Bool :=
  if b = 0xE0 then 0xA0 ≤ c && c ≤ 0xBF
  else if b = 0xED then 0x80 ≤ c && c ≤ 0x9F
  else 0x80 ≤ c && c ≤ 0xBF

/-- Second-byte admissibility for a four-byte UTF-8 lead (rules out
overlong encodings for `0xF0` and code points above U+10FFFF for `0xF4`). -/
def cont4Ok (b c : Nat) : Bool :=
  if b = 0xF0 then 0x90 ≤ c && c ≤ 0xBF
  else if b = 0xF4 then 0x80 ≤ c && c ≤ 0x8F
  else 0x80 ≤ c && c ≤ 0xBF

/-- A plain continuation byte. -/
def contOk (c : Nat) : Bool :=
  0x80 ≤ c && c ≤ 0xBF

/-- `bytes.decode("utf-8", "replace")` (line 236), as a total function from
bytes to the decoded code points: each maximal invalid subsequence prefix is
replaced by one U+FFFD and decoding resumes at the next byte, so the decode
never fails. -/
def decodeUtf8Replace : List Nat → List Nat
  | [] => []
  | b :: rest =>
    if b < 0x80 then
      b :: decodeUtf8Replace rest
    else if b < 0xC2 then
      replacementChar :: decodeUtf8Replace rest
    else if b < 0xE0 then
      match rest with
      | [] => [replacementChar]
      | c :: rest2 =>
        if contOk c then
          ((b - 0xC0) * 0x40 + (c - 0x80)) :: decodeUtf8Replace rest2
        else
          replacementChar :: decodeUtf8Replace (c :: rest2)
    else if b < 0xF0 then
      match rest with
      | [] => [replacementChar]
      | c :: rest2 =>
        if cont3Ok b c then
          match rest2 with
          | [] => [replacementChar]
          | d :: rest3 =>
            if contOk d then
              ((b - 0xE0) * 0x1000 + (c - 0x80) * 0x40 + (d - 0x80)) ::
                decodeUtf8Replace rest3
            else
              replacementChar :: decodeUtf8Replace (d :: rest3)
        else
          replacementChar :: decodeUtf8Replace (c :: rest2)
    else if b < 0xF5 then
      match rest with
      | [] => [replacementChar]
      | c :: rest2 =>
        if cont4Ok b c then
          match rest2 with
          | [] => [replacementChar]
          | d :: rest3 =>
            if contOk d then
              match rest3 with
              | [] => [replacementChar]
              | e :: rest4 =>
                if contOk e then
                  ((b - 0xF0) * 0x40000 + (c - 0x80) * 0x1000 +
                    (d - 0x80) * 0x40 + (e - 0x80)) :: decodeUtf8Replace rest4
                else
                  replacementChar :: decodeUtf8Replace (e :: rest4)
            else
              replacementChar :: decodeUtf8Replace (d :: rest3)
        else
          replacementChar :: decodeUtf8Replace (c :: rest2)
    else
      replacementChar :: decodeUtf8Replace rest
termination_by bs => bs.length
decreasing_by all_goals simp_arith

/-- The decoded error message as a string of the decoded code points. -/
def pyDecodeUtf8Replace (bs : List Nat) : String :=
  String.mk ((decodeUtf8Replace bs).map Char.ofNat)

/-- `HMMD_SEARCH_STATUS_SERIAL_SIZE`: the serialized status header is a
32-bit status code followed by a 64-bit message size. -/
def HMMD_SEARCH_STATUS_SERIAL_SIZE : Nat := 12

/-- The deserialized `HMMD_SEARCH_STATUS` header. -/
structure SearchStatus where
  status : Nat
  msg_size : Nat
  deriving Repr, DecidableEq

/-- Big-endian (network byte order) value of a byte list. -/
def beNat (bs : List Nat) : Nat :=
  bs.foldl (fun a b => a * 256 + b % 256) 0

/-- Modelled from the external HMMER library (`hmmd_search_status_Deserialize`,
declared in `libhmmer.hmmpgmd`, not part of this repository): reads the
status code and the message size from the fixed-size header in network byte
order; on a full-size buffer it always succeeds, so the `UnexpectedError`
branch guarding its status (lines 230-231) is unreachable in this model. -/
def statusDeserialize (bs : List Nat) : SearchStatus :=
  { status := beNat (bs.take 4), msg_size := beNat ((bs.drop 4).take 8) }

/-- The fields of the deserialized `HMMD_SEARCH_STATS` block that the client
copies or consumes (lines 257-271, 274, 291).  The floating-point fields
(`Z`, `domZ`) are outside the integer model and not touched by any claim. -/
structure SearchStats where
  nmodels : Nat
  nseqs : Nat
  n_past_msv : Nat
  n_past_vit : Nat
  n_past_fwd : Nat
  Z_setby : Nat
  domZ_setby : Nat
  nreported : Nat
  nincluded : Nat
  nhits : Nat
  hit_offsets : List Nat
  deriving Repr, DecidableEq

/-- A decoded hit record, opaque to the client (its internal structure is
owned by the external `p7_hit_Deserialize`). -/
abbrev Hit := List Nat

/-- The external statistics deserializer, as the client sees it: given the
response buffer it either fails with a non-`eslOK` status code or returns
the statistics block and the buffer offset after it. -/
abbrev StatsDeser := List Nat → Except Nat (SearchStats × Nat)

/-- The external hit deserializer, as the client sees it: given the response
buffer and the current offset it either fails with a non-`eslOK` status code
or returns one decoded hit and the advanced offset. -/
abbrev HitDeser := List Nat → Nat → Except Nat (Hit × Nat)

/-- The warning emitted at lines 291-293 when a hit's decoded byte offset
does not match the offset table of the statistics block. -/
structure OffsetWarning where
  index : Nat
  expected : Nat
  found : Nat
  deriving Repr, DecidableEq

/-- The `TopHits` fields the client populates (lines 254-302): the pipeline
mode and copied statistics, the two sort flags, the declared hit count `N`,
the unsorted hit storage `unsrt`, and the sorted-view array `hit`, modelled
as the list of `unsrt` indices the pointers `hits._th.hit[i]` reference. -/
structure TopHitsModel where
  mode : PipeMode
  nmodels : Nat
  nseqs : Nat
  n_past_msv : Nat
  n_past_vit : Nat
  n_past_fwd : Nat
  Z_setby : Nat
  domZ_setby : Nat
  nreported : Nat
  nincluded : Nat
  is_sorted_by_seqidx : Bool
  is_sorted_by_sortkey : Bool
  N : Nat
  unsrt : List Hit
  hit : List Nat
  deriving Repr, DecidableEq

/-- The hit-decoding loop `for i in range(search_stats.nhits)` of lines
284-302.  Arguments after the fixed ones: hits left to decode, the loop
index `i`, the cursor `buf_offset`, and the accumulated `unsrt` storage,
`hit` view array and warning list.  Returns the warnings emitted together
with either the decode failure or the finished arrays and final cursor. -/
def decodeHitsAux (hd : HitDeser) (buf : List Nat) (hits_start : Nat)
    (offsets : List Nat) :
    Nat → Nat → Nat → List Hit → List Nat → List OffsetWarning →
    List OffsetWarning × Except PyErr (List Hit × List Nat × Nat)
  | 0, _, buf_offset, unsrt, hit, warns => (warns, .ok (unsrt, hit, buf_offset))
  | n + 1, i, buf_offset, unsrt, hit, warns =>
    let expected := offsets.getD i 0
    let warns' :=
      if buf_offset - hits_start ≠ expected then
        warns ++ [⟨i, expected, buf_offset - hits_start⟩]
      else warns
    match hd buf buf_offset with
    | .error code => (warns', .error (.unexpectedError code "p7_hit_Deserialize"))
    | .ok (h, off') =>
        decodeHitsAux hd buf hits_start offsets n (i + 1) off'
          (unsrt ++ [h]) (hit ++ [i]) warns'

/-- The hit-decoding loop started as at line 283-284: `hits_start` is the
cursor position where the hit records begin and the loop index starts at
zero with empty accumulators. -/
def decodeHits (hd : HitDeser) (buf : List Nat) (hits_start : Nat)
    (offsets : List Nat) (nhits : Nat) (buf_offset : Nat) :
    List OffsetWarning × Except PyErr (List Hit × List Nat × Nat) :=
  decodeHitsAux hd buf hits_start offsets nhits 0 buf_offset [] [] []

/-- Decoding the Statistics+Hits payload (lines 242-302): deserialize the
statistics block, populate the result collection's scalar fields and sort
flags, then run the hit loop from the cursor left by the statistics
deserializer. -/
def decodeResponse (sd : StatsDeser) (hd : HitDeser) (mode : PipeMode)
    (response : List Nat) :
    List OffsetWarning × Except PyErr TopHitsModel :=
  match sd response with
  | .error code =>
      ([], .error (.unexpectedError code "p7_hmmd_search_search_stats_Deserialize"))
  | .ok (stats, buf_offset) =>
      match decodeHits hd response buf_offset stats.hit_offsets stats.nhits buf_offset with
      | (warns, .error e) => (warns, .error e)
      | (warns, .ok (unsrt, hit, _)) =>
          (warns,
            .ok { mode := mode
                  nmodels := stats.nmodels
                  nseqs := stats.nseqs
                  n_past_msv := stats.n_past_msv
                  n_past_vit := stats.n_past_vit
                  n_past_fwd := stats.n_past_fwd
                  Z_setby := stats.Z_setby
                  domZ_setby := stats.domZ_setby
                  nreported := stats.nreported
                  nincluded := stats.nincluded
                  is_sorted_by_seqidx := false
                  is_sorted_by_sortkey := true
                  N := stats.nhits
                  unsrt := unsrt
                  hit := hit })

/-- View of an `Except` value as a sum, to transport decidable equality. -/
def exceptToSum {ε α : Type} : Except ε α → ε ⊕ α
  | .error e => .inl e
  | .ok a => .inr a

instance {ε α : Type} [DecidableEq ε] [DecidableEq α] : DecidableEq (Except ε α) :=
  fun a b =>
    decidable_of_iff (exceptToSum a = exceptToSum b)
      (by cases a <;> cases b <;> simp [exceptToSum])

/-- Everything observable about one `Client._client` call: the byte chunks
written to the socket (in order), the integrity warnings emitted, and the
returned collection or the exception raised. -/
structure ClientOutcome where
  sent : List (List Nat)
  warnings : List OffsetWarning
  result : Except PyErr TopHitsModel
  deriving Repr, DecidableEq

/-- `Client._client` (lines 159-307) over a fragment stream: validate
`ranges`, send the request line, the query serialization and the `//`
sentinel, receive and deserialize the status header, follow the error path
(single `recv` of the message, `ServerError`) when the status is not
`eslOK`, otherwise receive the declared payload and decode it. -/
def clientRun (sd : StatsDeser) (hd : HitDeser) (queryBytes : List Nat)
    (db : Nat) (ranges : Option (List (List Int))) (options : String)
    (mode : PipeMode) (stream : List (List Nat)) : ClientOutcome :=
  match checkRanges ranges with
  | .error e => { sent := [], warnings := [], result := .error e }
  | .ok _ =>
    let sent := [asciiEncode (requestLine db ranges options mode), queryBytes,
      asciiEncode "//"]
    match recvall stream HMMD_SEARCH_STATUS_SERIAL_SIZE with
    | none => { sent := sent, warnings := [], result := .error .eofError }
    | some (header, stream1) =>
      let sstatus := statusDeserialize header
      if sstatus.status ≠ eslOK then
        { sent := sent, warnings := [],
          result := .error (.serverError sstatus.status
            (pyDecodeUtf8Replace (recvOnce stream1 sstatus.msg_size).1)) }
      else
        match recvall stream1 sstatus.msg_size with
        | none => { sent := sent, warnings := [], result := .error .eofError }
        | some (response, _) =>
          let out := decodeResponse sd hd mode response
          { sent := sent, warnings := out.1, result := out.2 }

/-- A concrete statistics block used to exercise the model on closed
inputs: two hits, with declared offsets 0 and 1. -/
def statsToy : SearchStats :=
  { nmodels := 1
    nseqs := 2
    n_past_msv := 3
    n_past_vit := 4
    n_past_fwd := 5
    Z_setby := 0
    domZ_setby := 0
    nreported := 2
    nincluded := 1
    nhits := 2
    hit_offsets := [0, 1] }

/-- A concrete statistics deserializer used to exercise the model on closed
inputs: it returns `statsToy` and leaves the cursor at the start of the
buffer. -/
def sdToy : StatsDeser := fun _ => .ok (statsToy, 0)

/-- A concrete hit deserializer used to exercise the model on closed inputs:
each hit consumes one byte of the buffer. -/
def hdToy : HitDeser := fun buf off => .ok ([buf.getD off 0], off + 1)

/-- The collection the toy deserializers produce from the two-byte payload
`[7, 8]`. -/
def thToy : TopHitsModel :=
  { mode := .search_seqs
    nmodels := 1
    nseqs := 2
    n_past_msv := 3
    n_past_vit := 4
    n_past_fwd := 5
    Z_setby := 0
    domZ_setby := 0
    nreported := 2
    nincluded := 1
    is_sorted_by_seqidx := false
    is_sorted_by_sortkey := true
    N := 2
    unsrt := [[7], [8]]
    hit := [0, 1] }

/-- C1: the claim says that when the caller supplies no `ranges` argument
(`ranges = None`), the validation step succeeds and the client proceeds to
send the request.  In the code the validation chain is flat, so for
`ranges = None` the `elif any(len(r) != 2 for r in ranges)` check iterates
over `None` and raises `TypeError` before anything is sent: the call fails
with a `TypeError` and an empty transcript for every query, database,
option string, mode and stream. -/
theorem clientRun_none_ranges_type_error (sd : StatsDeser) (hd : HitDeser)
    (queryBytes : List Nat) (db : Nat) (options : String) (mode : PipeMode)
    (stream : List (List Nat)) :
    clientRun sd hd queryBytes db none options mode stream =
      { sent := [], warnings := [],
        result := .error (.typeError "'NoneType' object is not iterable") } :=
  rfl

/-- C4 (counterexample): the encoded request line for `db = 3`,
`ranges = [(10, 20), (30, 40)]` and an empty options string is not the
spec's string `"@--seqdb 3 --seqdb_ranges 10..20,30..40\n"`: the code's
format template `"--seqdb_ranges {} {}"` keeps the separating space even
when the options string is empty. -/
theorem seqdbRequestLine_ne_spec_string :
    seqdbRequestLine 3 (some [[10, 20], [30, 40]]) "" ≠
      "@--seqdb 3 --seqdb_ranges 10..20,30..40\n" := by
  decide

/-- C4 (amended): the encoded request line for `db = 3`,
`ranges = [(10, 20), (30, 40)]` and an empty options string is exactly
`"@--seqdb 3 --seqdb_ranges 10..20,30..40 \n"`, with a single trailing
space between the ranges clause and the newline where the empty options
string was inserted. -/
theorem seqdbRequestLine_trailing_space :
    seqdbRequestLine 3 (some [[10, 20], [30, 40]]) "" =
      "@--seqdb 3 --seqdb_ranges 10..20,30..40 \n" := by
  decide

/-- Unfolding lemma: with nothing left to read the loop exits with the
accumulated buffer and the unconsumed fragments. -/
theorem recvallAux_zero (frags : List (List Nat)) (acc : List Nat) :
    recvallAux frags 0 acc = some (acc, frags) := by
  rw [recvallAux.eq_def]
  simp

/-- Unfolding lemma: bytes still missing on a closed stream is the
`EOFError` case. -/
theorem recvallAux_nil (remaining : Nat) (acc : List Nat) (h : remaining ≠ 0) :
    recvallAux [] remaining acc = none := by
  rw [recvallAux.eq_def, dif_neg h]

/-- Unfolding lemma: one iteration of the receive loop on a nonempty head
fragment. -/
theorem recvallAux_cons (f : List Nat) (rest : List (List Nat)) (remaining : Nat)
    (acc : List Nat) (h : remaining ≠ 0) (hf : f ≠ []) :
    recvallAux (f :: rest) remaining acc =
      recvallAux (if f.drop remaining = [] then rest else f.drop remaining :: rest)
        (remaining - (f.take remaining).length) (acc ++ f.take remaining) := by
  rw [recvallAux.eq_def, dif_neg h]
  exact dif_neg hf

/-- Splitting a `take` across the first fragment: what one loop iteration
takes from the head fragment plus what the rest of the loop takes from the
remainder is the prefix of the concatenation. -/
theorem take_split (f g : List Nat) (remaining : Nat) :
    f.take remaining ++
        (f.drop remaining ++ g).take (remaining - (f.take remaining).length) =
      (f ++ g).take remaining := by
  by_cases hRF : remaining ≤ f.length
  · have h0 : remaining - (f.take remaining).length = 0 := by
      rw [List.length_take]; omega
    rw [h0, List.take_zero, List.append_nil, List.take_append_eq_append_take,
      Nat.sub_eq_zero_of_le hRF, List.take_zero, List.append_nil]
  · push_neg at hRF
    have hfr : f.take remaining = f := List.take_of_length_le (le_of_lt hRF)
    have hdr : f.drop remaining = [] := List.drop_eq_nil_of_le (le_of_lt hRF)
    rw [hfr, hdr, List.nil_append, List.take_append_eq_append_take, hfr]

/-- The buffer `_recvall` produces, characterized over any stream of
nonempty delivered fragments: the first `remaining` bytes of the
concatenated stream appended to the accumulator when at least `remaining`
bytes arrive, and failure otherwise. -/
theorem recvallAux_map_fst (remaining : Nat) :
    ∀ (frags : List (List Nat)) (acc : List Nat), (∀ f ∈ frags, f ≠ []) →
      (recvallAux frags remaining acc).map Prod.fst =
        if remaining ≤ frags.flatten.length then
          some (acc ++ frags.flatten.take remaining)
        else none := by
  induction remaining using Nat.strong_induction_on with
  | _ remaining ih =>
    intro frags acc hne
    by_cases h0 : remaining = 0
    · subst h0
      rw [recvallAux_zero]
      simp
    · cases frags with
      | nil =>
        rw [recvallAux_nil _ _ h0, if_neg (by simpa [Nat.le_zero] using h0)]
        rfl
      | cons f rest =>
        have hf : f ≠ [] := hne f (List.mem_cons_self f rest)
        rw [recvallAux_cons f rest remaining acc h0 hf]
        have hflen : 0 < f.length := List.length_pos.mpr hf
        have hlt : remaining - (f.take remaining).length < remaining := by
          rw [List.length_take]; omega
        have hne' : ∀ g ∈ (if f.drop remaining = [] then rest
            else f.drop remaining :: rest), g ≠ [] := by
          intro g hg
          by_cases hd : f.drop remaining = []
          · exact hne g (List.mem_cons_of_mem f (by simpa [hd] using hg))
          · rw [if_neg hd] at hg
            rcases List.mem_cons.mp hg with hgd | hgr
            · rw [hgd]; exact hd
            · exact hne g (List.mem_cons_of_mem f hgr)
        rw [ih _ hlt _ _ hne']
        have hjoin : (if f.drop remaining = [] then rest
            else f.drop remaining :: rest).flatten = f.drop remaining ++ rest.flatten := by
          by_cases hd : f.drop remaining = [] <;> simp [hd]
        rw [hjoin]
        have hcond : (remaining - (f.take remaining).length ≤
              (f.drop remaining ++ rest.flatten).length) ↔
            (remaining ≤ (f :: rest).flatten.length) := by
          simp only [List.length_append, List.length_take, List.length_drop,
            List.flatten_cons]
          omega
        by_cases hle : remaining ≤ (f :: rest).flatten.length
        · rw [if_pos (hcond.mpr hle), if_pos hle]
          rw [List.flatten_cons, List.append_assoc, take_split]
        · rw [if_neg (fun hc => hle (hcond.mp hc)), if_neg hle]

/-- C3: on a stream of nonempty delivered fragments whose sizes sum to at
least `n`, `_recvall(n)` returns a buffer of exactly `n` bytes equal to the
first `n` delivered bytes; and when the peer closes after only `k < n`
bytes, it raises `EOFError` and never returns a (shorter) buffer. -/
theorem recvall_exact_or_eof (n : Nat) (frags : List (List Nat))
    (hne : ∀ f ∈ frags, f ≠ []) :
    (n ≤ frags.flatten.length →
        (recvall frags n).map Prod.fst = some (frags.flatten.take n) ∧
        ∀ b s, recvall frags n = some (b, s) → b.length = n) ∧
      (frags.flatten.length < n → recvall frags n = none) := by
  have hmain := recvallAux_map_fst n frags [] hne
  rw [recvall] at *
  constructor
  · intro hle
    rw [if_pos hle, List.nil_append] at hmain
    refine ⟨hmain, ?_⟩
    intro b s hbs
    rw [hbs] at hmain
    simp only [Option.map_some', Option.some.injEq] at hmain
    rw [show b = Prod.fst (b, s) from rfl, hmain, List.length_take]
    omega
  · intro hlt
    rw [if_neg (by omega)] at hmain
    exact Option.map_eq_none'.mp hmain

/-- C3 witness: a stream delivering fragments of sizes 2, 1 and 3 satisfies
a request for 4 bytes with exactly the first four delivered bytes. -/
theorem recvall_exact_or_eof_witness :
    (recvall [[1, 2], [3], [4, 5, 6]] 4).map Prod.fst = some [1, 2, 3, 4] := by
  have h := ((recvall_exact_or_eof 4 [[1, 2], [3], [4, 5, 6]] (by decide)).1
    (by decide)).1
  simpa using h

/-- The successive values of the decode cursor `buf_offset` at the top of
each iteration of the hit loop: entry `j` is present exactly when the first
`j` hit records deserialized successfully, i.e. when the loop reaches
record `j`. -/
def hitTrace (hd : HitDeser) (buf : List Nat) : Nat → Nat → List Nat
  | 0, _ => []
  | n + 1, off =>
    off ::
      (match hd buf off with
       | .ok (_, off') => hitTrace hd buf n off'
       | .error _ => [])

/-- Warnings already accumulated are preserved by the rest of the hit
loop. -/
theorem decodeHitsAux_warns_mono (hd : HitDeser) (buf : List Nat)
    (hits_start : Nat) (offsets : List Nat) (n : Nat) :
    ∀ (i off : Nat) (u : List Hit) (hh : List Nat) (w : List OffsetWarning)
      (x : OffsetWarning), x ∈ w →
      x ∈ (decodeHitsAux hd buf hits_start offsets n i off u hh w).1 := by
  induction n with
  | zero => intro i off u hh w x hx; exact hx
  | succ n ih =>
    intro i off u hh w x hx
    rw [decodeHitsAux]
    have hx' : x ∈
        (if off - hits_start ≠ offsets.getD i 0 then
          w ++ [⟨i, offsets.getD i 0, off - hits_start⟩]
        else w) := by
      by_cases hm : off - hits_start ≠ offsets.getD i 0
      · rw [if_pos hm]; exact List.mem_append_left _ hx
      · rw [if_neg hm]; exact hx
    cases hcall : hd buf off with
    | error code => simpa [hcall] using hx'
    | ok p =>
      obtain ⟨h, off'⟩ := p
      simpa [hcall] using ih (i + 1) off' (u ++ [h]) (hh ++ [i]) _ x hx'

/-- The decoded result (success or failure, hits, view array, final cursor)
does not depend on the declared offset table or the warnings accumulated so
far: the loop only ever compares the table against its own cursor to emit a
warning, never to steer decoding. -/
theorem decodeHitsAux_result_indep (hd : HitDeser) (buf : List Nat)
    (hits_start : Nat) (offsets offsets' : List Nat) (n : Nat) :
    ∀ (i off : Nat) (u : List Hit) (hh : List Nat) (w w' : List OffsetWarning),
      (decodeHitsAux hd buf hits_start offsets n i off u hh w).2 =
        (decodeHitsAux hd buf hits_start offsets' n i off u hh w').2 := by
  induction n with
  | zero => intro i off u hh w w'; rfl
  | succ n ih =>
    intro i off u hh w w'
    rw [decodeHitsAux, decodeHitsAux]
    cases hcall : hd buf off with
    | error code => rfl
    | ok p =>
      obtain ⟨h, off'⟩ := p
      exact ih (i + 1) off' (u ++ [h]) (hh ++ [i]) _ _

/-- Every reached record whose cursor position disagrees with the declared
offset table produces its integrity warning in the loop's output. -/
theorem decodeHitsAux_mismatch_warn (hd : HitDeser) (buf : List Nat)
    (hits_start : Nat) (offsets : List Nat) (n : Nat) :
    ∀ (i off : Nat) (u : List Hit) (hh : List Nat) (w : List OffsetWarning)
      (j : Nat), j < (hitTrace hd buf n off).length →
      (hitTrace hd buf n off).getD j 0 - hits_start ≠ offsets.getD (i + j) 0 →
      (⟨i + j, offsets.getD (i + j) 0,
          (hitTrace hd buf n off).getD j 0 - hits_start⟩ : OffsetWarning) ∈
        (decodeHitsAux hd buf hits_start offsets n i off u hh w).1 := by
  induction n with
  | zero => intro i off u hh w j hj; simp [hitTrace] at hj
  | succ n ih =>
    intro i off u hh w j hj hm
    rw [decodeHitsAux]
    cases hcall : hd buf off with
    | error code =>
      cases j with
      | zero =>
        simp only [hitTrace, List.getD_cons_zero, Nat.add_zero] at hm ⊢
        rw [if_pos hm]
        exact List.mem_append_right _ (List.mem_singleton.mpr rfl)
      | succ j =>
        rw [hitTrace] at hj
        simp only [hcall, List.length_cons, List.length_nil] at hj
        omega
    | ok p =>
      obtain ⟨h, off'⟩ := p
      cases j with
      | zero =>
        simp only [hitTrace, List.getD_cons_zero, Nat.add_zero] at hm ⊢
        exact decodeHitsAux_warns_mono hd buf hits_start offsets n _ _ _ _ _ _
          (by rw [if_pos hm]; exact List.mem_append_right _ (List.mem_singleton.mpr rfl))
      | succ j =>
        have hj' : j < (hitTrace hd buf n off').length := by
          rw [hitTrace] at hj
          simpa [hcall] using hj
        have hmj : (hitTrace hd buf n off').getD j 0 - hits_start ≠
            offsets.getD ((i + 1) + j) 0 := by
          rw [hitTrace] at hm
          simp only [hcall, List.getD_cons_succ] at hm
          rw [show (i + 1) + j = i + (j + 1) by omega]
          exact hm
        have hrec := ih (i + 1) off' (u ++ [h]) (hh ++ [i])
          (if off - hits_start ≠ offsets.getD i 0 then
            w ++ [⟨i, offsets.getD i 0, off - hits_start⟩]
          else w) j hj' hmj
        rw [hitTrace]
        simp only [hcall, List.getD_cons_succ]
        rw [show i + (j + 1) = (i + 1) + j by omega]
        exact hrec

/-- On success the hit loop appends exactly `n` records to the unsorted
storage and makes view entry `i + j` reference storage slot `i + j`: the
view list extends by `[i, i+1, ..., i+n-1]`. -/
theorem decodeHitsAux_ok_spec (hd : HitDeser) (buf : List Nat)
    (hits_start : Nat) (offsets : List Nat) (n : Nat) :
    ∀ (i off : Nat) (u : List Hit) (hh : List Nat) (w w' : List OffsetWarning)
      (u' : List Hit) (hh' : List Nat) (o : Nat),
      decodeHitsAux hd buf hits_start offsets n i off u hh w = (w', .ok (u', hh', o)) →
      u'.length = u.length + n ∧ hh' = hh ++ List.range' i n := by
  induction n with
  | zero =>
    intro i off u hh w w' u' hh' o h
    rw [decodeHitsAux] at h
    simp only [Prod.mk.injEq, Except.ok.injEq] at h
    obtain ⟨-, hu, hhh, -⟩ := h
    constructor
    · rw [← hu, Nat.add_zero]
    · rw [← hhh]
      simp
  | succ n ih =>
    intro i off u hh w w' u' hh' o h
    rw [decodeHitsAux] at h
    cases hcall : hd buf off with
    | error code => rw [hcall] at h; exact absurd h (by simp)
    | ok p =>
      obtain ⟨hv, off'⟩ := p
      rw [hcall] at h
      obtain ⟨hlen, hview⟩ := ih (i + 1) off' (u ++ [hv]) (hh ++ [i]) _ w' u' hh' o h
      constructor
      · rw [hlen, List.length_append]
        simp
        omega
      · rw [hview, List.range'_succ, List.append_assoc]
        rfl

/-- C8: passing `ranges = []` to a sequence-database search raises
`ValueError` before any byte is written to the transport: the outcome has
an empty send transcript and the validation error, for every query,
database, option string, mode and stream. -/
theorem clientRun_empty_ranges_no_send (sd : StatsDeser) (hd : HitDeser)
    (queryBytes : List Nat) (db : Nat) (options : String) (mode : PipeMode)
    (stream : List (List Nat)) :
    clientRun sd hd queryBytes db (some []) options mode stream =
      { sent := [], warnings := [],
        result := .error
          (.valueError "At least one range is needed for the `ranges` argument") } :=
  rfl

/-- C7: an offset-table mismatch at any reached hit record emits its
integrity warning into the warning list, while the decode outcome (hits,
view array, final cursor, success or failure) is entirely independent of
the offset table: a mismatch alone never raises and never stops the loop,
which keeps decoding that record and all later ones from its own cursor. -/
theorem decodeHits_mismatch_warns_not_fatal (hd : HitDeser) (buf : List Nat)
    (hits_start : Nat) (offsets offsets' : List Nat) (nhits buf_offset : Nat) :
    (decodeHits hd buf hits_start offsets nhits buf_offset).2 =
      (decodeHits hd buf hits_start offsets' nhits buf_offset).2 ∧
    ∀ j, j < (hitTrace hd buf nhits buf_offset).length →
      (hitTrace hd buf nhits buf_offset).getD j 0 - hits_start ≠ offsets.getD j 0 →
      (⟨j, offsets.getD j 0,
          (hitTrace hd buf nhits buf_offset).getD j 0 - hits_start⟩ : OffsetWarning) ∈
        (decodeHits hd buf hits_start offsets nhits buf_offset).1 := by
  constructor
  · rw [decodeHits, decodeHits]
    exact decodeHitsAux_result_indep hd buf hits_start offsets offsets' nhits
      0 buf_offset [] [] [] []
  · intro j hj hm
    have hw := decodeHitsAux_mismatch_warn hd buf hits_start offsets nhits
      0 buf_offset [] [] [] j hj (by simpa using hm)
    rw [decodeHits]
    simpa using hw

/-- C7 witness: with a two-record payload whose declared offset table reads
`[5, 1]` while the loop's cursor sits at 0 for the first record, the
warning for record 0 (expected 5, found 0) is emitted in the output. -/
theorem decodeHits_mismatch_warns_not_fatal_witness :
    (⟨0, 5, 0⟩ : OffsetWarning) ∈ (decodeHits hdToy [7, 8] 0 [5, 1] 2 0).1 :=
  (decodeHits_mismatch_warns_not_fatal hdToy [7, 8] 0 [5, 1] [0, 1] 2 0).2 0
    (by decide) (by decide)

/-- Inversion: a successful payload decode comes from a successful
statistics deserialization and a successful hit loop, and the returned
collection is exactly the record the client populates at lines 254-302. -/
theorem decodeResponse_ok_inv (sd : StatsDeser) (hd : HitDeser) (mode : PipeMode)
    (response : List Nat) (warns : List OffsetWarning) (th : TopHitsModel)
    (h : decodeResponse sd hd mode response = (warns, .ok th)) :
    ∃ stats buf_offset unsrt hit o,
      sd response = .ok (stats, buf_offset) ∧
      decodeHits hd response buf_offset stats.hit_offsets stats.nhits buf_offset =
        (warns, .ok (unsrt, hit, o)) ∧
      th = { mode := mode
             nmodels := stats.nmodels
             nseqs := stats.nseqs
             n_past_msv := stats.n_past_msv
             n_past_vit := stats.n_past_vit
             n_past_fwd := stats.n_past_fwd
             Z_setby := stats.Z_setby
             domZ_setby := stats.domZ_setby
             nreported := stats.nreported
             nincluded := stats.nincluded
             is_sorted_by_seqidx := false
             is_sorted_by_sortkey := true
             N := stats.nhits
             unsrt := unsrt
             hit := hit } := by
  rw [decodeResponse] at h
  split at h
  · exact absurd h (by simp)
  next stats buf_offset hsd =>
    split at h
    · exact absurd h (by simp)
    next w2 unsrt hit o hdh =>
      simp only [Prod.mk.injEq, Except.ok.injEq] at h
      obtain ⟨hw, hth⟩ := h
      exact ⟨stats, buf_offset, unsrt, hit, o, hsd, by rw [hdh, hw], hth.symm⟩

/-- C2: when the statistics block of a payload deserializes to a declared
hit count `nhits` and the payload decodes successfully, the returned
collection stores `N = nhits`, holds exactly `nhits` decoded hit records,
and its view array has exactly `nhits` entries. -/
theorem decodeResponse_hit_count (sd : StatsDeser) (hd : HitDeser)
    (mode : PipeMode) (response : List Nat) (stats : SearchStats)
    (buf_offset : Nat) (warns : List OffsetWarning) (th : TopHitsModel)
    (hsd : sd response = .ok (stats, buf_offset))
    (h : decodeResponse sd hd mode response = (warns, .ok th)) :
    th.N = stats.nhits ∧ th.unsrt.length = stats.nhits ∧
      th.hit.length = stats.nhits := by
  obtain ⟨stats', bo', unsrt, hit, o, hsd', hdh, hth⟩ :=
    decodeResponse_ok_inv sd hd mode response warns th h
  rw [hsd] at hsd'
  simp only [Except.ok.injEq, Prod.mk.injEq] at hsd'
  obtain ⟨hstats, hbo⟩ := hsd'
  subst hstats
  subst hbo
  rw [decodeHits] at hdh
  obtain ⟨hlen, hview⟩ := decodeHitsAux_ok_spec hd response buf_offset
    stats.hit_offsets stats.nhits 0 buf_offset [] [] [] warns unsrt hit o hdh
  subst hth
  have h1 : unsrt.length = stats.nhits := by simpa using hlen
  have h2 : hit.length = stats.nhits := by rw [hview]; simp
  exact ⟨rfl, h1, h2⟩

/-- C2 witness: the toy deserializers declare two hits and the decode of
the two-byte payload `[7, 8]` yields the collection `thToy` with exactly
two stored records. -/
theorem decodeResponse_hit_count_witness :
    thToy.N = statsToy.nhits ∧ thToy.unsrt.length = statsToy.nhits ∧
      thToy.hit.length = statsToy.nhits :=
  decodeResponse_hit_count sdToy hdToy .search_seqs [7, 8] statsToy 0 [] thToy
    rfl rfl

/-- Inversion: a call that returns a collection must have decoded a
received payload successfully, and the returned collection is the decode's
output. -/
theorem clientRun_ok (sd : StatsDeser) (hd : HitDeser) (queryBytes : List Nat)
    (db : Nat) (ranges : Option (List (List Int))) (options : String)
    (mode : PipeMode) (stream : List (List Nat)) (th : TopHitsModel)
    (h : (clientRun sd hd queryBytes db ranges options mode stream).result = .ok th) :
    ∃ response warns, decodeResponse sd hd mode response = (warns, .ok th) := by
  rw [clientRun] at h
  split at h
  · exact absurd h (by simp)
  · split at h
    · exact absurd h (by simp)
    next header stream1 hrecv =>
      dsimp only at h
      split at h
      · exact absurd h (by simp)
      · split at h
        · exact absurd h (by simp)
        next response rest hr2 =>
          have h' : (decodeResponse sd hd mode response).2 = .ok th := h
          refine ⟨response, (decodeResponse sd hd mode response).1, ?_⟩
          rw [← h']

/-- C6: every collection returned by a search or scan call has its
sorted-by-key flag set and its sorted-by-target-index flag cleared, so the
two sorted flags are never simultaneously true. -/
theorem clientRun_sort_flags (sd : StatsDeser) (hd : HitDeser)
    (queryBytes : List Nat) (db : Nat) (ranges : Option (List (List Int)))
    (options : String) (mode : PipeMode) (stream : List (List Nat))
    (th : TopHitsModel)
    (h : (clientRun sd hd queryBytes db ranges options mode stream).result = .ok th) :
    th.is_sorted_by_sortkey = true ∧ th.is_sorted_by_seqidx = false ∧
      ¬(th.is_sorted_by_sortkey = true ∧ th.is_sorted_by_seqidx = true) := by
  obtain ⟨response, warns, hdec⟩ :=
    clientRun_ok sd hd queryBytes db ranges options mode stream th h
  obtain ⟨stats, bo, unsrt, hit, o, -, -, hth⟩ :=
    decodeResponse_ok_inv sd hd mode response warns th hdec
  rw [hth]
  exact ⟨rfl, rfl, fun hc => by simpa using hc.2⟩

/-- C10: for every collection a search or scan call returns, view entry `i`
references storage slot `i` for all `i < N`: the view array is exactly
`[0, 1, ..., N-1]`, so iterating the collection yields the hits in the
server-transmitted order. -/
theorem clientRun_hit_view_identity (sd : StatsDeser) (hd : HitDeser)
    (queryBytes : List Nat) (db : Nat) (ranges : Option (List (List Int)))
    (options : String) (mode : PipeMode) (stream : List (List Nat))
    (th : TopHitsModel)
    (h : (clientRun sd hd queryBytes db ranges options mode stream).result = .ok th) :
    th.hit = List.range th.N ∧ ∀ i, i < th.N → th.hit.getD i 0 = i := by
  obtain ⟨response, warns, hdec⟩ :=
    clientRun_ok sd hd queryBytes db ranges options mode stream th h
  obtain ⟨stats, bo, unsrt, hit, o, hsd, hdh, hth⟩ :=
    decodeResponse_ok_inv sd hd mode response warns th hdec
  rw [decodeHits] at hdh
  obtain ⟨-, hview⟩ := decodeHitsAux_ok_spec hd response bo stats.hit_offsets
    stats.nhits 0 bo [] [] [] warns unsrt hit o hdh
  have hhit : hit = List.range stats.nhits := by
    rw [hview, List.nil_append, List.range_eq_range']
  have hthhit : th.hit = List.range th.N := by
    rw [hth]
    exact hhit
  refine ⟨hthhit, ?_⟩
  intro i hi
  rw [hthhit, List.getD_eq_getElem?_getD,
    List.getElem?_range hi, Option.getD_some]

/-- A successful concrete exchange: the server answers with a 12-byte
success header declaring a 2-byte payload, followed by the payload
`[7, 8]`; with the toy deserializers the call returns `thToy`. -/
theorem clientRunToy_result :
    (clientRun sdToy hdToy [9] 1 (some [[1, 2]]) "" .search_seqs
      [[0, 0, 0, 0, 0, 0, 0, 0, 0, 0, 0, 2], [7, 8]]).result = .ok thToy := by
  have h12 : recvall [[0, 0, 0, 0, 0, 0, 0, 0, 0, 0, 0, 2], [7, 8]] 12 =
      some ([0, 0, 0, 0, 0, 0, 0, 0, 0, 0, 0, 2], [[7, 8]]) := by
    simp [recvall, recvallAux_cons, recvallAux_zero]
  have hhdr : statusDeserialize [0, 0, 0, 0, 0, 0, 0, 0, 0, 0, 0, 2] =
      { status := 0, msg_size := 2 } := by
    decide
  have h2 : recvall [[7, 8]] 2 = some ([7, 8], []) := by
    simp [recvall, recvallAux_cons, recvallAux_zero]
  simp only [clientRun, HMMD_SEARCH_STATUS_SERIAL_SIZE, h12, hhdr, h2, eslOK]
  decide

/-- C6 witness: the collection returned by the concrete successful exchange
has the sorted-by-key flag set, the sorted-by-target-index flag cleared,
and not both flags true. -/
theorem clientRun_sort_flags_witness :
    thToy.is_sorted_by_sortkey = true ∧ thToy.is_sorted_by_seqidx = false ∧
      ¬(thToy.is_sorted_by_sortkey = true ∧ thToy.is_sorted_by_seqidx = true) :=
  clientRun_sort_flags sdToy hdToy [9] 1 (some [[1, 2]]) "" .search_seqs
    [[0, 0, 0, 0, 0, 0, 0, 0, 0, 0, 0, 2], [7, 8]] thToy clientRunToy_result

/-- C10 witness: the collection produced from the toy two-hit payload has
view array `[0, 1] = List.range 2`. -/
theorem clientRun_hit_view_identity_witness :
    thToy.hit = List.range thToy.N :=
  (clientRun_hit_view_identity sdToy hdToy [9] 1 (some [[1, 2]]) ""
    .search_seqs [[0, 0, 0, 0, 0, 0, 0, 0, 0, 0, 0, 2], [7, 8]] thToy
    clientRunToy_result).1

/-- C9: whenever the `ranges` validation passes, the bytes written to the
transport are exactly the request line, then the query's binary
serialization, then the two-byte sentinel `//` as the final send — in that
order, whatever the server then answers. -/
theorem clientRun_request_framing (sd : StatsDeser) (hd : HitDeser)
    (queryBytes : List Nat) (db : Nat) (ranges : Option (List (List Int)))
    (options : String) (mode : PipeMode) (stream : List (List Nat))
    (hok : checkRanges ranges = .ok ()) :
    (clientRun sd hd queryBytes db ranges options mode stream).sent =
      [asciiEncode (requestLine db ranges options mode), queryBytes,
        asciiEncode "//"] := by
  simp only [clientRun, hok]
  cases recvall stream HMMD_SEARCH_STATUS_SERIAL_SIZE with
  | none => rfl
  | some p =>
    obtain ⟨header, stream1⟩ := p
    dsimp only
    by_cases hst : (statusDeserialize header).status ≠ eslOK
    · rw [if_pos hst]
    · rw [if_neg hst]
      cases recvall stream1 (statusDeserialize header).msg_size <;> rfl

/-- C9 witness: a concrete valid call sends exactly the request line, the
query bytes `[9]` and the sentinel `//`. -/
theorem clientRun_request_framing_witness :
    (clientRun sdToy hdToy [9] 1 (some [[1, 2]]) "" .search_seqs []).sent =
      [asciiEncode (requestLine 1 (some [[1, 2]]) "" .search_seqs), [9],
        asciiEncode "//"] :=
  clientRun_request_framing sdToy hdToy [9] 1 (some [[1, 2]]) "" .search_seqs
    [] rfl

/-- A single `recv(n)` delivers the next fragment truncated to `n`: its
byte count is `min n (length of the next fragment)`, which can be less
than `n`. -/
theorem recvOnce_fst_len (frags : List (List Nat)) (n : Nat) :
    (recvOnce frags n).1.length = min n (frags.headD []).length := by
  cases frags with
  | nil => simp [recvOnce]
  | cons f rest => simp [recvOnce, List.length_take]

/-- C5 (amended): when the deserialized status header reports an error
status, the client performs a single receive of up to the declared
message-length bytes (possibly fewer, if the message is fragmented or the
peer closed), decodes what it received as UTF-8 with invalid sequences
replaced (a total decode), and raises `ServerError` carrying the status
code and the decoded message. -/
theorem clientRun_server_error (sd : StatsDeser) (hd : HitDeser)
    (queryBytes : List Nat) (db : Nat) (ranges : Option (List (List Int)))
    (options : String) (mode : PipeMode) (stream : List (List Nat))
    (header : List Nat) (stream1 : List (List Nat))
    (hok : checkRanges ranges = .ok ())
    (hrecv : recvall stream HMMD_SEARCH_STATUS_SERIAL_SIZE = some (header, stream1))
    (herr : (statusDeserialize header).status ≠ eslOK) :
    (clientRun sd hd queryBytes db ranges options mode stream).result =
      .error (.serverError (statusDeserialize header).status
        (pyDecodeUtf8Replace
          (recvOnce stream1 (statusDeserialize header).msg_size).1)) ∧
    (recvOnce stream1 (statusDeserialize header).msg_size).1.length =
      min (statusDeserialize header).msg_size (stream1.headD []).length := by
  constructor
  · simp only [clientRun, hok, hrecv]
    rw [if_pos herr]
  · exact recvOnce_fst_len stream1 _

/-- C5 (counterexample): the claim says the client receives exactly the
declared message-length bytes of the error message.  With an error header
declaring a 2-byte message but the transport fragmenting the message into
two 1-byte deliveries, the single `recv` returns only the first byte: the
raised `ServerError` carries the 1-character message `"A"` although the
header declared 2 bytes. -/
theorem clientRun_server_error_short_read :
    (clientRun sdToy hdToy [9] 1 (some [[1, 2]]) "" .search_seqs
        [[0, 0, 0, 1, 0, 0, 0, 0, 0, 0, 0, 2], [65], [66]]).result =
      .error (.serverError 1 "A") ∧
    (statusDeserialize [0, 0, 0, 1, 0, 0, 0, 0, 0, 0, 0, 2]).msg_size = 2 ∧
    ("A".length = 1) := by
  have h12 : recvall [[0, 0, 0, 1, 0, 0, 0, 0, 0, 0, 0, 2], [65], [66]] 12 =
      some ([0, 0, 0, 1, 0, 0, 0, 0, 0, 0, 0, 2], [[65], [66]]) := by
    simp [recvall, recvallAux_cons, recvallAux_zero]
  have hhdr : statusDeserialize [0, 0, 0, 1, 0, 0, 0, 0, 0, 0, 0, 2] =
      { status := 1, msg_size := 2 } := by
    decide
  have hmsg : pyDecodeUtf8Replace [65] = "A" := by
    rw [pyDecodeUtf8Replace, decodeUtf8Replace]
    norm_num [decodeUtf8Replace]
  refine ⟨?_, by decide, by decide⟩
  simp only [clientRun, HMMD_SEARCH_STATUS_SERIAL_SIZE, h12, hhdr, eslOK]
  simp [recvOnce, hmsg, checkRanges]

/-- C5 witness: the amended theorem applied to the fragmented error
exchange above. -/
theorem clientRun_server_error_witness :
    (clientRun sdToy hdToy [9] 1 (some [[1, 2]]) "" .search_seqs
        [[0, 0, 0, 1, 0, 0, 0, 0, 0, 0, 0, 2], [65], [66]]).result =
      .error (.serverError
        (statusDeserialize [0, 0, 0, 1, 0, 0, 0, 0, 0, 0, 0, 2]).status
        (pyDecodeUtf8Replace (recvOnce [[65], [66]]
          (statusDeserialize [0, 0, 0, 1, 0, 0, 0, 0, 0, 0, 0, 2]).msg_size).1)) :=
  (clientRun_server_error sdToy hdToy [9] 1 (some [[1, 2]]) "" .search_seqs
    [[0, 0, 0, 1, 0, 0, 0, 0, 0, 0, 0, 2], [65], [66]]
    [0, 0, 0, 1, 0, 0, 0, 0, 0, 0, 0, 2] [[65], [66]] rfl
    (by simp [recvall, recvallAux_cons, recvallAux_zero,
      HMMD_SEARCH_STATUS_SERIAL_SIZE]) (by decide)).1

end Daemon
